import Mathlib

/-!
Verification of the IntelliDoc document-understanding core (backend/app/services
chatbot.py, summarizer2.py, and the chat endpoints in backend/app/api/endpoints/chat.py).

The Python source is shallowly embedded: pure helpers become Lean functions on
`String` / `List`, the in-memory session dictionary becomes an association list
passed explicitly, external collaborators (the SentenceTransformer embedding
model, the LLM provider, nltk's sentence tokenizer, sklearn/NetworkX numerics)
become function parameters, and Python exceptions become `Except` results.
Similarity scores are modelled as rationals (`ℚ`): the properties at stake
(counts, ordering, tie-breaking) depend only on the ordered field structure,
not on floating point.
-/

/-! ### Python string primitives

`isPySpace` models Python's `\s` / `str.split()` whitespace classes,
`wordsAux` models `str.split()` (split on whitespace runs, no empty words),
`sentSplitGo` models `re.split(r'(?<=[.!?])\s+', text)` used by
`chunk_document` and `generate_answer`: a separator is a maximal whitespace
run whose preceding character is one of `.`, `!`, `?`.  A trailing separator
produces a trailing empty sentence, exactly as `re.split` does. -/

def isPySpace (c : Char) : Bool :=
  c == ' ' || c == '\t' || c == '\n' || c == '\r' || c == '\x0b' || c == '\x0c'

def isTerminal (c : Char) : Bool :=
  c == '.' || c == '!' || c == '?'

/-- Accumulator-based model of Python `str.split()`; `cur` holds the current
word reversed. -/
def wordsAux : List Char → List Char → List String
  | [], cur => if cur = [] then [] else [⟨cur.reverse⟩]
  | c :: rest, cur =>
    if isPySpace c then
      if cur = [] then wordsAux rest [] else ⟨cur.reverse⟩ :: wordsAux rest []
    else wordsAux rest (c :: cur)

/-- Python `text.split()`. -/
def pySplitWords (s : String) : List String :=
  wordsAux s.data []

/-- `len(text.split())`, the word count used throughout `chunk_document`. -/
def wordCount (s : String) : Nat :=
  (pySplitWords s).length

/-- Sum of per-sentence word counts: `sum(len(s.split()) for s in chunk)`. -/
def wordSum (l : List String) : Nat :=
  (l.map wordCount).sum

/-- Python `str.lower()` (modelled with `Char.toLower`). -/
def pyLower (s : String) : String :=
  ⟨s.data.map Char.toLower⟩

/-- Python `str.strip()`. -/
def pyStrip (s : String) : String :=
  ⟨((s.data.dropWhile isPySpace).reverse.dropWhile isPySpace).reverse⟩

def headIsTerminal : List Char → Bool
  | [] => false
  | p :: _ => isTerminal p

/-- Scanner for `re.split(r'(?<=[.!?])\s+', text)`.  `cur` is the current
sentence reversed; the flag records whether we are inside a separator
whitespace run (whose further whitespace is consumed). -/
def sentSplitGo : List Char → List Char → Bool → List (List Char)
  | [], cur, _ => [cur.reverse]
  | c :: rest, cur, true =>
    if isPySpace c then sentSplitGo rest cur true
    else sentSplitGo rest (c :: cur) false
  | c :: rest, cur, false =>
    if isPySpace c && headIsTerminal cur then
      cur.reverse :: sentSplitGo rest [] true
    else sentSplitGo rest (c :: cur) false

/-- `re.split(r'(?<=[.!?])\s+', text)`: the sentence splitter of
`chunk_document` and `generate_answer`. -/
def pySentSplit (s : String) : List String :=
  (sentSplitGo s.data [] false).map (fun l => ⟨l⟩)

/-- Python `' '.join(parts)`. -/
def joinSp : List String → String
  | [] => ""
  | [a] => a
  | a :: b :: rest => a ++ " " ++ joinSp (b :: rest)

/-! ### The Chunker (`DocumentChatbot.chunk_document`)

The Python `for` loop over sentences is written as structural recursion
`chunkGo`; `cur`/`curLen` mirror `current_chunk`/`current_length`.  The
trailing `if current_chunk: chunks.append(...)` is the base case (the initial
`current_chunk` of the loop is empty exactly when the sentence list is empty,
which is the `[]` case of `chunkSentences`).  `overlapOf ov prev` is
`prev[max(0, len(prev) - ov):]`, the seed kept across a chunk boundary. -/

def overlapOf (ov : Nat) (prev : List String) : List String :=
  prev.drop (prev.length - ov)

def chunkGo (size ov : Nat) : List String → Nat → List String → List (List String)
  | cur, _, [] => [cur]
  | cur, curLen, s :: rest =>
    let slen := wordCount s
    if curLen + slen > size ∧ cur ≠ [] then
      let kept := overlapOf ov cur
      cur :: chunkGo size ov (kept ++ [s]) (wordSum kept + slen) rest
    else
      chunkGo size ov (cur ++ [s]) (curLen + slen) rest

/-- The chunks of `chunk_document`, kept as sentence lists (the Python code
joins each with a single space, see `chunk_document`). -/
def chunkSentences (size ov : Nat) : List String → List (List String)
  | [] => []
  | s :: rest => chunkGo size ov [s] (wordCount s) rest

/-- `DocumentChatbot.chunk_document(text, chunk_size, chunk_overlap_sentences)`.
The source defaults are `chunk_size = 200`, `chunk_overlap_sentences = 2`. -/
def chunk_document (text : String) (size : Nat := 200) (ov : Nat := 2) : List String :=
  (chunkSentences size ov (pySentSplit text)).map joinSp

/-! ### De-overlapping (for the lossless-reconstruction property)

`deOverlap ov` removes from every chunk after the first the sentences it
repeats from the end of the previous chunk, i.e. the first
`(overlapOf ov prev).length` sentences. -/

def deOverlapTail (ov : Nat) : List String → List (List String) → List (List String)
  | _, [] => []
  | prev, c :: rest => c.drop (overlapOf ov prev).length :: deOverlapTail ov c rest

def deOverlap (ov : Nat) : List (List String) → List (List String)
  | [] => []
  | c :: rest => c :: deOverlapTail ov c rest

/-! ### The ranking step of `find_relevant_context` / `answer_from_session`

The Python code computes `similarities` (cosine similarity of the question
embedding against the chunk embeddings, an external-model + sklearn
computation, here abstracted to the resulting score list) and then selects
`np.argsort(similarities)[-top_k:][::-1]`.

`np.argsort` is modelled as the ascending sort of the indices `0..n-1` by the
key `(value, index)` — the deterministic reading of argsort in which entries
with equal scores stay in index order, matching what numpy actually produces
on the small arrays used below (its introsort falls back to a stable insertion
sort on short arrays).  The Python slice `a[-k:]` is `drop (n - k)` for
`k ≥ 1`, but `a[-0:]` is the whole array, which the model reproduces. -/

def rankLE (sims : List ℚ) (i j : Nat) : Prop :=
  sims.getD i 0 < sims.getD j 0 ∨ (sims.getD i 0 = sims.getD j 0 ∧ i ≤ j)

instance (sims : List ℚ) : DecidableRel (rankLE sims) := fun i j => by
  unfold rankLE; infer_instance

instance rankLE_total (sims : List ℚ) : IsTotal Nat (rankLE sims) :=
  ⟨fun i j => by
    unfold rankLE
    rcases lt_trichotomy (sims.getD i 0) (sims.getD j 0) with h | h | h
    · exact Or.inl (Or.inl h)
    · rcases Nat.le_total i j with hij | hij
      · exact Or.inl (Or.inr ⟨h, hij⟩)
      · exact Or.inr (Or.inr ⟨h.symm, hij⟩)
    · exact Or.inr (Or.inl h)⟩

instance rankLE_trans (sims : List ℚ) : IsTrans Nat (rankLE sims) :=
  ⟨fun a b c hab hbc => by
    unfold rankLE at hab hbc ⊢
    rcases hab with h1 | ⟨e1, l1⟩ <;> rcases hbc with h2 | ⟨e2, l2⟩
    · exact Or.inl (h1.trans h2)
    · exact Or.inl (h1.trans_eq e2)
    · exact Or.inl (e1.trans_lt h2)
    · exact Or.inr ⟨e1.trans e2, l1.trans l2⟩⟩

/-- `np.argsort(sims)` (ascending). -/
def argsortAsc (sims : List ℚ) : List Nat :=
  List.insertionSort (rankLE sims) (List.range sims.length)

/-- `np.argsort(sims)[-k:][::-1]`: the ranked chunk indices returned by the
retrieval step (`top_k` defaults to 3 in `find_relevant_context`, and is the
literal 3 in `answer_from_session`). -/
def topIndices (sims : List ℚ) (k : Nat) : List Nat :=
  let asc := argsortAsc sims
  (if k = 0 then asc else asc.drop (asc.length - k)).reverse

/-! ### The Answer Synthesizer (`DocumentChatbot.generate_answer`)

Scores every context sentence by the size of the intersection of its
(lowercased) word set with the question's word set, keeps the positive
scores, sorts them descending (Python `list.sort(reverse=True, key=...)` is
stable, which `List.insertionSort` with a reflexive `≥`-style relation
reproduces), joins the top two sentences, and strips the result.  With no
positive score it returns a fixed fallback message. -/

def fallbackAnswer : String :=
  "I couldn\x27t find a specific answer to your question in the document. Could you rephrase or ask something else?"

def scoreGE (a b : Nat × String) : Prop := b.1 ≤ a.1

instance : DecidableRel scoreGE := fun a b => by
  unfold scoreGE; infer_instance

/-- Case-insensitive word-set overlap between the question and a sentence:
`len(set(question.lower().split()) & set(sentence.lower().split()))`. -/
def overlapCount (question sentence : String) : Nat :=
  (((pySplitWords (pyLower question)).dedup).filter
    (fun w => w ∈ pySplitWords (pyLower sentence))).length

/-- `DocumentChatbot.generate_answer(question, context)` (the stored
`conversation_history` argument is unused by the Python body). -/
def generate_answer (question context : String) : String :=
  let scored := (pySentSplit context).filterMap (fun s =>
    let overlap := overlapCount question s
    if 0 < overlap then some (overlap, s) else none)
  if scored = [] then
    fallbackAnswer
  else
    pyStrip (joinSp (((List.insertionSort scoreGE scored).take 2).map Prod.snd))

/-! ### The Extractive Ranker (`HybridSummarizer.extractive_summarize`)

`sentTok` models `nltk.sent_tokenize` (an external library), and `selectIdx`
models the embedding + PageRank selection of sentence indices (external model
plus floating-point numerics); `selectIdx cleaned n = none` models the
`except:` fallback around `nx.pagerank`.  When the selection succeeds the
Python code has already re-sorted the chosen indices ascending, so the model
simply joins `cleaned[i]` for the returned indices. -/

def extractive_summarize (sentTok : String → List String)
    (selectIdx : List String → Nat → Option (List Nat))
    (text : String) (numSentences : Nat) : String :=
  let sentences := sentTok text
  if sentences.length ≤ numSentences then
    joinSp sentences
  else
    let cleaned := (sentences.filter (fun s => 5 < (pySplitWords s).length)).map pyStrip
    if cleaned.length < 2 then
      joinSp (sentences.take numSentences)
    else
      match selectIdx cleaned numSentences with
      | some idxs => joinSp (idxs.filterMap (fun i => cleaned.get? i))
      | none => joinSp (cleaned.take numSentences)

/-! ### The Session Store (`DocumentChatbot.sessions` and its methods)

A session record mirrors the dictionary stored by `create_session`; the
store itself (a Python dict) is an insertion-ordered association list, with
`setSession` reproducing dict assignment (overwrite in place, else append).
Timestamps are abstracted to `Nat` (`datetime.now()` is ambient state).
Embedding vectors are `List ℚ`; `embed` is the external SentenceTransformer
collaborator, whose failure is an `Except.error`. -/

structure Turn where
  question : String
  answer : String
  timestamp : Nat
deriving DecidableEq

structure Session where
  documentText : String
  chunks : List String
  chunkEmbeddings : List (List ℚ)
  metadata : List (String × String)
  conversationHistory : List Turn
  createdAt : Nat
deriving DecidableEq

abbrev Store := List (String × Session)

def lookupSession (st : Store) (sessionId : String) : Option Session :=
  match st.find? (fun p => p.1 == sessionId) with
  | some p => some p.2
  | none => none

/-- Python dict assignment `sessions[session_id] = s`. -/
def setSession : Store → String → Session → Store
  | [], sessionId, s => [(sessionId, s)]
  | p :: rest, sessionId, s =>
    if p.1 == sessionId then (sessionId, s) :: rest
    else p :: setSession rest sessionId s

/-- `self.sentence_model.encode(chunks)`: embeds each chunk with the external
collaborator, propagating the first failure (a raised exception in Python). -/
def encodeChunks (embed : String → Except String (List ℚ)) :
    List String → Except String (List (List ℚ))
  | [] => .ok []
  | c :: cs =>
    match embed c with
    | .error e => .error e
    | .ok v =>
      match encodeChunks embed cs with
      | .error e => .error e
      | .ok vs => .ok (v :: vs)

/-- `DocumentChatbot.create_session(session_id, document_text, metadata)`.
The chunking is pure; only the embedding call can raise, in which case the
`except` branch returns the error dict and `self.sessions` is untouched.
On success the new session dict is stored (overwriting any previous entry
for the same id) and `chunks_count` is returned. -/
def create_session (embed : String → Except String (List ℚ)) (now : Nat)
    (st : Store) (sessionId documentText : String)
    (metadata : List (String × String)) : Store × Except String Nat :=
  match encodeChunks embed (chunk_document documentText 200 2) with
  | .error e => (st, .error ("Failed to create session: " ++ e))
  | .ok embs =>
    (setSession st sessionId
      { documentText := documentText
        chunks := chunk_document documentText 200 2
        chunkEmbeddings := embs
        metadata := metadata
        conversationHistory := []
        createdAt := now },
     .ok (chunk_document documentText 200 2).length)

/-- `DocumentChatbot.clear_history(session_id)`: `False` models the
"Session not found" error dict, `True` the success dict. -/
def clear_history (st : Store) (sessionId : String) : Store × Bool :=
  match lookupSession st sessionId with
  | none => (st, false)
  | some s =>
    (setSession st sessionId { s with conversationHistory := [] }, true)

/-- `DocumentChatbot.answer_from_session(session_id, question)`.  `sims`
abstracts `cosine_similarity(encode([question]), chunk_embeddings)[0]`
(external model + sklearn); the ranking, context assembly, extractive answer
and the append of the new conversation turn follow the source. -/
def answer_from_session (sims : String → List (List ℚ) → List ℚ) (now : Nat)
    (st : Store) (sessionId question : String) : Store × Except String String :=
  match lookupSession st sessionId with
  | none => (st, .error "Session not found. Please create a session first.")
  | some s =>
    let similarities := sims question s.chunkEmbeddings
    let relevantChunks := (topIndices similarities 3).filterMap (fun i => s.chunks.get? i)
    let context := joinSp relevantChunks
    let answer := generate_answer question context
    let s' := { s with conversationHistory :=
        s.conversationHistory ++ [⟨question, answer, now⟩] }
    (setSession st sessionId s', .ok answer)

/-- The `POST /chat/ask/` handler (`ask_question` in endpoints/chat.py).
With `use_llm` and an available provider it takes the LLM path: look the
session up directly in the dict, call `llm_service.chat_with_llm` on the
first 5000 characters of the document and the last 3 turns (`llmReply`, the
external LLM), and parse the JSON reply (`parseAnswer`, `json.loads`-based;
`none` models a `JSONDecodeError`).  Otherwise it delegates to
`answer_from_session`.  Note the LLM branch never writes to the store. -/
def ask_question (llmAvailable : Bool)
    (llmReply : String → List Turn → String → String)
    (parseAnswer : String → Option String)
    (sims : String → List (List ℚ) → List ℚ) (now : Nat)
    (st : Store) (sessionId question : String) (useLLM : Bool) :
    Store × Except String String :=
  if useLLM && llmAvailable then
    match lookupSession st sessionId with
    | none => (st, .error "Session not found")
    | some s =>
      let raw := llmReply ⟨s.documentText.data.take 5000⟩
        (s.conversationHistory.drop (s.conversationHistory.length - 3)) question
      match parseAnswer raw with
      | some ans => (st, .ok ans)
      | none =>
        (st, .error ("LLM failed to return a structured JSON response. Raw output: "
          ++ ⟨raw.data.take 200⟩))
  else
    answer_from_session sims now st sessionId question

/-- A concrete session used by the witnesses below: one stored document chunk
and one recorded conversation turn. -/
def demoSession : Session :=
  { documentText := "Alpha beta. Gamma delta."
    chunks := ["Alpha beta. Gamma delta."]
    chunkEmbeddings := [[1]]
    metadata := [("document_name", "demo")]
    conversationHistory := [⟨"First question?", "First answer.", 1⟩]
    createdAt := 0 }

/-! ### Store lemmas -/

theorem lookupSession_setSession_self (st : Store) (sessionId : String) (s : Session) :
    lookupSession (setSession st sessionId s) sessionId = some s := by
  induction st with
  | nil => simp [setSession, lookupSession, List.find?]
  | cons p rest ih =>
    by_cases h : p.1 == sessionId
    · simp [setSession, h, lookupSession, List.find?]
    · simp only [setSession, h, if_false, Bool.false_eq_true]
      simpa [lookupSession, List.find?, h] using ih

theorem encodeChunks_ok_length (embed : String → Except String (List ℚ)) :
    ∀ (cs : List String) (embs : List (List ℚ)),
      encodeChunks embed cs = .ok embs → embs.length = cs.length := by
  intro cs
  induction cs with
  | nil =>
    intro embs h
    simp only [encodeChunks, Except.ok.injEq] at h
    simp [← h]
  | cons c cs ih =>
    intro embs h
    simp only [encodeChunks] at h
    cases he : embed c with
    | error e => rw [he] at h; exact absurd h (by simp)
    | ok v =>
      rw [he] at h
      cases hr : encodeChunks embed cs with
      | error e => rw [hr] at h; exact absurd h (by simp)
      | ok vs =>
        rw [hr] at h
        simp only [Except.ok.injEq] at h
        subst h
        simp [ih vs hr]

theorem encodeChunks_ok_getD (embed : String → Except String (List ℚ)) :
    ∀ (cs : List String) (embs : List (List ℚ)),
      encodeChunks embed cs = .ok embs →
      ∀ i, i < cs.length → embed (cs.getD i "") = .ok (embs.getD i []) := by
  intro cs
  induction cs with
  | nil => intro embs _ i hi; exact absurd hi (by simp)
  | cons c cs ih =>
    intro embs h i hi
    simp only [encodeChunks] at h
    cases he : embed c with
    | error e => rw [he] at h; exact absurd h (by simp)
    | ok v =>
      rw [he] at h
      cases hr : encodeChunks embed cs with
      | error e => rw [hr] at h; exact absurd h (by simp)
      | ok vs =>
        rw [hr] at h
        simp only [Except.ok.injEq] at h
        subst h
        cases i with
        | zero => simpa using he
        | succ i => simpa using ih vs hr i (by simpa using hi)

theorem clear_history_found (st : Store) (sessionId : String) (s : Session)
    (h : lookupSession st sessionId = some s) :
    clear_history st sessionId
      = (setSession st sessionId { s with conversationHistory := [] }, true) := by
  simp [clear_history, h]

/-! ### Session-store claims -/

/-- Claim C9: for a session id present in the store, `clear_history` succeeds,
empties the conversation log, and doing it a second time again succeeds and
leaves the log empty; the document text, chunks and embeddings (and all other
session fields) are those of the original session throughout. -/
theorem clear_history_idempotent (st : Store) (sessionId : String) (s : Session)
    (h : lookupSession st sessionId = some s) :
    (clear_history st sessionId).2 = true ∧
    lookupSession (clear_history st sessionId).1 sessionId
      = some { s with conversationHistory := [] } ∧
    (clear_history (clear_history st sessionId).1 sessionId).2 = true ∧
    lookupSession (clear_history (clear_history st sessionId).1 sessionId).1 sessionId
      = some { s with conversationHistory := [] } := by
  have h1 := clear_history_found st sessionId s h
  have h2 : lookupSession (clear_history st sessionId).1 sessionId
      = some { s with conversationHistory := [] } := by
    rw [h1]; exact lookupSession_setSession_self ..
  have h3 := clear_history_found (clear_history st sessionId).1 sessionId
    { s with conversationHistory := [] } h2
  refine ⟨by rw [h1], h2, by rw [h3], ?_⟩
  rw [h3]; exact lookupSession_setSession_self ..

/-- Witness for C9 at a concrete one-session store. -/
theorem clear_history_idempotent_witness :
    lookupSession [("s", demoSession)] "s" = some demoSession ∧
    ((clear_history [("s", demoSession)] "s").2 = true ∧
     lookupSession (clear_history [("s", demoSession)] "s").1 "s"
       = some { demoSession with conversationHistory := [] } ∧
     (clear_history (clear_history [("s", demoSession)] "s").1 "s").2 = true ∧
     lookupSession (clear_history (clear_history [("s", demoSession)] "s").1 "s").1 "s"
       = some { demoSession with conversationHistory := [] }) :=
  ⟨by decide, clear_history_idempotent [("s", demoSession)] "s" demoSession (by decide)⟩

/-- Claim C6: `create_session` either fails because the embedding collaborator
raised, leaving the store exactly as it was (in particular storing nothing
under the id), or stores a session holding the chunks, index-aligned
embeddings (the i-th stored vector is the collaborator's output on the i-th
chunk), an empty conversation log and the creation timestamp. -/
theorem create_session_spec (embed : String → Except String (List ℚ)) (now : Nat)
    (st : Store) (sessionId documentText : String) (metadata : List (String × String)) :
    (∀ e, encodeChunks embed (chunk_document documentText 200 2) = .error e →
      create_session embed now st sessionId documentText metadata
        = (st, .error ("Failed to create session: " ++ e))) ∧
    (∀ embs, encodeChunks embed (chunk_document documentText 200 2) = .ok embs →
      create_session embed now st sessionId documentText metadata
        = (setSession st sessionId
            ⟨documentText, chunk_document documentText 200 2, embs, metadata, [], now⟩,
           .ok (chunk_document documentText 200 2).length) ∧
      lookupSession (create_session embed now st sessionId documentText metadata).1 sessionId
        = some ⟨documentText, chunk_document documentText 200 2, embs, metadata, [], now⟩ ∧
      embs.length = (chunk_document documentText 200 2).length ∧
      ∀ i, i < (chunk_document documentText 200 2).length →
        embed ((chunk_document documentText 200 2).getD i "")
          = .ok (embs.getD i [])) := by
  constructor
  · intro e he
    simp [create_session, he]
  · intro embs he
    have hcr : create_session embed now st sessionId documentText metadata
        = (setSession st sessionId
            ⟨documentText, chunk_document documentText 200 2, embs, metadata, [], now⟩,
           .ok (chunk_document documentText 200 2).length) := by
      simp [create_session, he]
    refine ⟨hcr, ?_, encodeChunks_ok_length embed _ _ he, encodeChunks_ok_getD embed _ _ he⟩
    rw [hcr]
    exact lookupSession_setSession_self ..

/-- Witness for C6, both branches: a failing embedder leaves the store
unchanged; a working embedder stores the session. -/
theorem create_session_spec_witness :
    create_session (fun _ => .error "model unreachable") 0 [] "s" "Aa bb." []
      = ([], .error "Failed to create session: model unreachable") ∧
    create_session (fun _ => .ok [1]) 0 [] "s" "Aa bb." []
      = (setSession [] "s" ⟨"Aa bb.", chunk_document "Aa bb." 200 2, [[1]], [], [], 0⟩,
         .ok (chunk_document "Aa bb." 200 2).length) :=
  ⟨(create_session_spec (fun _ => .error "model unreachable") 0 [] "s" "Aa bb." []).1
      "model unreachable" (by rfl),
   ((create_session_spec (fun _ => .ok [1]) 0 [] "s" "Aa bb." []).2
      [[1]] (by rfl)).1⟩

/-- Claim C10: calling `create_session` for an id already present in the store
does not error on account of the existing entry (its outcome is independent of
the store) and, when the embedding collaborator succeeds, overwrites the entry
with a session built solely from the new document: new chunks, new embeddings,
new metadata, creation timestamp, and an empty conversation log — the old
document, chunks, embeddings, metadata and accumulated history are discarded. -/
theorem create_session_overwrites (embed : String → Except String (List ℚ)) (now : Nat)
    (st : Store) (sessionId documentText : String) (metadata : List (String × String))
    (sOld : Session) (embs : List (List ℚ))
    (_hOld : lookupSession st sessionId = some sOld)
    (hEnc : encodeChunks embed (chunk_document documentText 200 2) = .ok embs) :
    (create_session embed now st sessionId documentText metadata).2
      = .ok (chunk_document documentText 200 2).length ∧
    lookupSession (create_session embed now st sessionId documentText metadata).1 sessionId
      = some ⟨documentText, chunk_document documentText 200 2, embs, metadata, [], now⟩ ∧
    ∀ st' : Store, (create_session embed now st' sessionId documentText metadata).2
      = (create_session embed now st sessionId documentText metadata).2 := by
  refine ⟨?_, ?_, ?_⟩
  · simp [create_session, hEnc]
  · simp only [create_session, hEnc]
    exact lookupSession_setSession_self ..
  · intro st'
    simp [create_session, hEnc]

/-- Witness for C10: overwriting the demo session (which has one recorded
turn) resets the stored history to empty with the new document. -/
theorem create_session_overwrites_witness :
    (create_session (fun _ => .ok [2]) 5 [("s", demoSession)] "s" "New doc." []).2
      = .ok (chunk_document "New doc." 200 2).length ∧
    lookupSession (create_session (fun _ => .ok [2]) 5 [("s", demoSession)] "s" "New doc." []).1 "s"
      = some ⟨"New doc.", chunk_document "New doc." 200 2, [[2]], [], [], 5⟩ :=
  ⟨(create_session_overwrites (fun _ => .ok [2]) 5 [("s", demoSession)] "s" "New doc." []
      demoSession [[2]] (by decide) (by rfl)).1,
   (create_session_overwrites (fun _ => .ok [2]) 5 [("s", demoSession)] "s" "New doc." []
      demoSession [[2]] (by decide) (by rfl)).2.1⟩

/-- Claim C1 (failing input): the `use_llm=true` path of `POST /chat/ask/`
returns the parsed LLM answer but leaves the session store — in particular the
session's conversation log — completely unchanged: no conversation turn is
appended, although the semantic-search path appends one and the history
endpoint and `llm_service._prepare_messages` both contain code for turns
"stored as JSON (from use_llm=true)". -/
theorem ask_question_llm_no_append :
    ask_question true (fun _ _ _ => "json with the answer") (fun _ => some "The answer")
        (fun _ _ => [1]) 7 [("s", demoSession)] "s" "What is alpha?" true
      = ([("s", demoSession)], .ok "The answer") ∧
    (lookupSession [("s", demoSession)] "s").map Session.conversationHistory
      = some [⟨"First question?", "First answer.", 1⟩] := by
  constructor
  · rfl
  · decide

/-! ### Extractive Ranker claim -/

/-- Claim C7: whenever the tokenized sentence count is at most
`num_sentences`, `extractive_summarize` returns all sentences, joined in
their original order, for every possible ranking collaborator (no ranking is
performed). -/
theorem extractive_summarize_small (sentTok : String → List String)
    (selectIdx : List String → Nat → Option (List Nat))
    (text : String) (numSentences : Nat)
    (h : (sentTok text).length ≤ numSentences) :
    extractive_summarize sentTok selectIdx text numSentences = joinSp (sentTok text) := by
  simp [extractive_summarize, h]

/-- Witness for C7: a 2-sentence text with `num_sentences = 5` (using the
repository's own regex sentence splitter as the tokenizer and a ranking
collaborator that would fail if consulted) returns both sentences in order. -/
theorem extractive_summarize_small_witness :
    (pySentSplit "Alpha is first. Beta is second.").length ≤ 5 ∧
    extractive_summarize pySentSplit (fun _ _ => none) "Alpha is first. Beta is second." 5
      = "Alpha is first. Beta is second." :=
  ⟨by decide,
   Trans.trans
     (extractive_summarize_small pySentSplit (fun _ _ => none)
       "Alpha is first. Beta is second." 5 (by decide))
     (by decide)⟩

/-! ### Answer Synthesizer claim -/

/-- Claim C8: if no context sentence shares a single (case-insensitive) word
with the question, `generate_answer` returns the fixed fallback message (a
total function in the model: the Python body raises no exception on this
path). -/
theorem generate_answer_no_overlap (question context : String)
    (h : ∀ s ∈ pySentSplit context, overlapCount question s = 0) :
    generate_answer question context = fallbackAnswer := by
  have hempty : (pySentSplit context).filterMap (fun s =>
      let overlap := overlapCount question s
      if 0 < overlap then some (overlap, s) else none) = [] := by
    rw [List.filterMap_eq_nil_iff]
    intro s hs
    simp [h s hs]
  simp [generate_answer, hempty]

/-- Witness for C8: a question with zero lexical overlap against every
context sentence. -/
theorem generate_answer_no_overlap_witness :
    (∀ s ∈ pySentSplit "Photosynthesis converts light. Plants use chlorophyll.",
      overlapCount "Who won the match?" s = 0) ∧
    generate_answer "Who won the match?" "Photosynthesis converts light. Plants use chlorophyll."
      = fallbackAnswer :=
  ⟨by decide,
   generate_answer_no_overlap "Who won the match?"
     "Photosynthesis converts light. Plants use chlorophyll." (by decide)⟩

/-! ### Ranking claims -/

theorem argsortAsc_sorted (sims : List ℚ) :
    List.Sorted (rankLE sims) (argsortAsc sims) :=
  List.sorted_insertionSort (rankLE sims) (List.range sims.length)

theorem argsortAsc_perm (sims : List ℚ) :
    List.Perm (argsortAsc sims) (List.range sims.length) :=
  List.perm_insertionSort (rankLE sims) (List.range sims.length)

theorem argsortAsc_length (sims : List ℚ) :
    (argsortAsc sims).length = sims.length := by
  rw [(argsortAsc_perm sims).length_eq, List.length_range]

theorem argsortAsc_nodup (sims : List ℚ) : (argsortAsc sims).Nodup :=
  ((argsortAsc_perm sims).nodup_iff).mpr (List.nodup_range _)

/-- Claim C2 (amended): for every score list and every `k ≥ 1`, the ranking
step returns exactly `min k n` distinct in-range indices ordered by
descending similarity; when two entries have exactly equal scores the entry
with the LARGER corpus index is listed first (that is `rankLE sims j i` for
`i` listed before `j`: either `sims[j] < sims[i]`, or the scores are equal
and `j ≤ i`). -/
theorem topIndices_spec (sims : List ℚ) (k : Nat) (hk : 1 ≤ k) :
    (topIndices sims k).length = min k sims.length ∧
    List.Pairwise (fun i j => rankLE sims j i) (topIndices sims k) ∧
    (topIndices sims k).Nodup ∧
    ∀ i ∈ topIndices sims k, i < sims.length := by
  have hk0 : k ≠ 0 := Nat.one_le_iff_ne_zero.mp hk
  have hd : topIndices sims k
      = ((argsortAsc sims).drop ((argsortAsc sims).length - k)).reverse := by
    simp [topIndices, hk0]
  have hsub : ((argsortAsc sims).drop ((argsortAsc sims).length - k)).Sublist
      (argsortAsc sims) := List.drop_sublist _ _
  refine ⟨?_, ?_, ?_, ?_⟩
  · rw [hd, List.length_reverse, List.length_drop, argsortAsc_length]
    omega
  · rw [hd, List.pairwise_reverse]
    exact List.Pairwise.sublist hsub (argsortAsc_sorted sims)
  · rw [hd, List.nodup_reverse]
    exact (argsortAsc_nodup sims).sublist hsub
  · intro i hi
    rw [hd, List.mem_reverse] at hi
    have hmem : i ∈ List.range sims.length :=
      (argsortAsc_perm sims).mem_iff.mp (hsub.subset hi)
    simpa using hmem

/-- Witness for C2 (amended) at scores `[2, 1, 3]`, `k = 2`. -/
theorem topIndices_spec_witness :
    (topIndices [(2:ℚ), 1, 3] 2).length = min 2 3 ∧
    ∀ i ∈ topIndices [(2:ℚ), 1, 3] 2, i < 3 :=
  ⟨(topIndices_spec [(2:ℚ), 1, 3] 2 (by decide)).1,
   (topIndices_spec [(2:ℚ), 1, 3] 2 (by decide)).2.2.2⟩

/-- Claim C2 counterexample: on two exactly-equal scores with `k = 2` the
code returns `[1, 0]` — the larger corpus index first — not `[0, 1]` as the
claim's tie-break demands; and for `k = 0` (Python `a[-0:]` is the whole
array) one index is returned instead of `min 0 1 = 0`. -/
theorem topIndices_tie_cex :
    topIndices [(1:ℚ), 1] 2 = [1, 0] ∧
    topIndices [(1:ℚ), 1] 2 ≠ [0, 1] ∧
    (topIndices [(1:ℚ)] 0).length ≠ min 0 1 :=
  ⟨by decide, by decide, by decide⟩

/-! ### Chunker lemmas -/

theorem wordSum_append (l₁ l₂ : List String) :
    wordSum (l₁ ++ l₂) = wordSum l₁ + wordSum l₂ := by
  simp [wordSum]

theorem wordSum_singleton (s : String) : wordSum [s] = wordCount s := by
  simp [wordSum]

theorem overlapOf_length_le (ov : Nat) (prev : List String) :
    (overlapOf ov prev).length ≤ ov := by
  simp only [overlapOf, List.length_drop]
  omega

theorem chunkGo_ne_nil (size ov : Nat) :
    ∀ (rest cur : List String) (curLen : Nat), chunkGo size ov cur curLen rest ≠ [] := by
  intro rest
  induction rest with
  | nil => intro cur curLen; simp [chunkGo]
  | cons s rest ih =>
    intro cur curLen
    by_cases hc : curLen + wordCount s > size ∧ cur ≠ []
    · simp [chunkGo, hc]
    · simp only [chunkGo, if_neg hc]
      exact ih _ _

theorem chunkGo_close_step (size ov : Nat) (cur : List String) (curLen : Nat)
    (s : String) (rest : List String) (hc : curLen + wordCount s > size ∧ cur ≠ []) :
    chunkGo size ov cur curLen (s :: rest)
      = cur :: chunkGo size ov (overlapOf ov cur ++ [s])
          (wordSum (overlapOf ov cur) + wordCount s) rest := by
  simp [chunkGo, hc]

theorem chunkGo_add_step (size ov : Nat) (cur : List String) (curLen : Nat)
    (s : String) (rest : List String) (hc : ¬ (curLen + wordCount s > size ∧ cur ≠ [])) :
    chunkGo size ov cur curLen (s :: rest)
      = chunkGo size ov (cur ++ [s]) (curLen + wordCount s) rest := by
  simp [chunkGo, hc]

theorem deOverlapTail_chunkGo_join (size ov : Nat) :
    ∀ (rest cur : List String) (curLen : Nat) (prev suffix : List String),
      cur = overlapOf ov prev ++ suffix →
      (deOverlapTail ov prev (chunkGo size ov cur curLen rest)).flatten = suffix ++ rest := by
  intro rest
  induction rest with
  | nil =>
    intro cur curLen prev suffix hcur
    simp [chunkGo, deOverlapTail, hcur, List.drop_left]
  | cons s rest ih =>
    intro cur curLen prev suffix hcur
    by_cases hc : curLen + wordCount s > size ∧ cur ≠ []
    · rw [chunkGo_close_step size ov cur curLen s rest hc, deOverlapTail]
      rw [List.flatten_cons]
      rw [ih (overlapOf ov cur ++ [s]) _ cur [s] rfl]
      rw [hcur, List.drop_left]
      simp
    · rw [chunkGo_add_step size ov cur curLen s rest hc]
      rw [ih (cur ++ [s]) _ prev (suffix ++ [s]) (by rw [hcur, List.append_assoc])]
      simp

theorem deOverlap_chunkGo_join (size ov : Nat) :
    ∀ (rest cur : List String) (curLen : Nat),
      (deOverlap ov (chunkGo size ov cur curLen rest)).flatten = cur ++ rest := by
  intro rest
  induction rest with
  | nil => intro cur curLen; simp [chunkGo, deOverlap, deOverlapTail]
  | cons s rest ih =>
    intro cur curLen
    by_cases hc : curLen + wordCount s > size ∧ cur ≠ []
    · rw [chunkGo_close_step size ov cur curLen s rest hc, deOverlap, List.flatten_cons]
      rw [deOverlapTail_chunkGo_join size ov rest _ _ cur [s] rfl]
      simp
    · rw [chunkGo_add_step size ov cur curLen s rest hc]
      rw [ih (cur ++ [s]) _]
      simp

theorem chunkGo_head_chain (size ov : Nat) :
    ∀ (rest cur : List String) (curLen : Nat),
      (∃ ext, (chunkGo size ov cur curLen rest).head? = some (cur ++ ext)) ∧
      List.Chain' (fun p n => n.take (overlapOf ov p).length = overlapOf ov p)
        (chunkGo size ov cur curLen rest) := by
  intro rest
  induction rest with
  | nil =>
    intro cur curLen
    exact ⟨⟨[], by simp [chunkGo]⟩, by simp [chunkGo]⟩
  | cons s rest ih =>
    intro cur curLen
    by_cases hc : curLen + wordCount s > size ∧ cur ≠ []
    · obtain ⟨⟨ext, hhead⟩, hchain⟩ :=
        ih (overlapOf ov cur ++ [s]) (wordSum (overlapOf ov cur) + wordCount s)
      rw [chunkGo_close_step size ov cur curLen s rest hc]
      refine ⟨⟨[], by simp⟩, ?_⟩
      rw [List.chain'_cons']
      refine ⟨?_, hchain⟩
      intro b hb
      rw [hhead] at hb
      simp only [Option.mem_some_iff] at hb
      subst hb
      rw [List.append_assoc, List.take_left]
    · obtain ⟨⟨ext, hhead⟩, hchain⟩ := ih (cur ++ [s]) (curLen + wordCount s)
      rw [chunkGo_add_step size ov cur curLen s rest hc]
      exact ⟨⟨[s] ++ ext, by rw [hhead, List.append_assoc]⟩, hchain⟩

/-- Claim C3: for every document, `chunk_document`'s chunks (as sentence
lists) repeat, at the start of every chunk after the first, exactly the
overlap kept from the end of the previous chunk, and removing that overlap
from each later chunk and concatenating yields exactly the document's
original sentence sequence — nothing lost, duplicated or reordered. -/
theorem chunk_deoverlap_reconstructs (text : String) (size ov : Nat) :
    List.Chain' (fun p n => n.take (overlapOf ov p).length = overlapOf ov p)
      (chunkSentences size ov (pySentSplit text)) ∧
    (deOverlap ov (chunkSentences size ov (pySentSplit text))).flatten
      = pySentSplit text := by
  cases h : pySentSplit text with
  | nil => simp [chunkSentences, deOverlap]
  | cons s rest =>
    constructor
    · exact (chunkGo_head_chain size ov rest [s] (wordCount s)).2
    · simpa [chunkSentences] using deOverlap_chunkGo_join size ov rest [s] (wordCount s)

/-! ### Word counts of joined chunks -/

theorem wordsAux_append_space :
    ∀ (xs ys cur : List Char),
      wordsAux (xs ++ ' ' :: ys) cur = wordsAux xs cur ++ wordsAux ys [] := by
  intro xs
  induction xs with
  | nil =>
    intro ys cur
    by_cases h : cur = [] <;> simp [wordsAux, h, isPySpace]
  | cons c xs ih =>
    intro ys cur
    by_cases hsp : isPySpace c
    · by_cases h : cur = [] <;> simp [wordsAux, hsp, h, ih]
    · simp [wordsAux, hsp, ih]

theorem pySplitWords_space_append (a b : String) :
    pySplitWords (a ++ " " ++ b) = pySplitWords a ++ pySplitWords b := by
  have hdata : (a ++ " " ++ b).data = a.data ++ ' ' :: b.data := by
    simp [String.data_append]
  simp [pySplitWords, hdata, wordsAux_append_space]

theorem wordCount_joinSp : ∀ l : List String, wordCount (joinSp l) = wordSum l := by
  intro l
  induction l with
  | nil => rfl
  | cons a rest ih =>
    cases rest with
    | nil => simp [joinSp, wordSum]
    | cons b rest' =>
      have hj : joinSp (a :: b :: rest') = a ++ " " ++ joinSp (b :: rest') := rfl
      rw [show wordCount (joinSp (a :: b :: rest'))
            = (pySplitWords (joinSp (a :: b :: rest'))).length from rfl]
      rw [hj, pySplitWords_space_append, List.length_append]
      rw [show (pySplitWords (joinSp (b :: rest'))).length
            = wordCount (joinSp (b :: rest')) from rfl, ih]
      simp [wordSum, wordCount]

/-! ### Chunk size invariant -/

theorem chunkGo_bound (size ov : Nat) :
    ∀ (rest cur : List String) (curLen : Nat),
      cur ≠ [] → curLen = wordSum cur →
      (wordSum cur ≤ size ∨ cur.length ≤ ov + 1) →
      ∀ c ∈ (chunkGo size ov cur curLen rest).dropLast,
        wordSum c ≤ size ∨ c.length ≤ ov + 1 := by
  intro rest
  induction rest with
  | nil =>
    intro cur curLen _ _ _ c hc
    simp [chunkGo] at hc
  | cons s rest ih =>
    intro cur curLen hne hlen hinv c hc
    by_cases hcond : curLen + wordCount s > size ∧ cur ≠ []
    · rw [chunkGo_close_step size ov cur curLen s rest hcond] at hc
      rcases hrec : chunkGo size ov (overlapOf ov cur ++ [s])
          (wordSum (overlapOf ov cur) + wordCount s) rest with _ | ⟨d, L⟩
      · exact absurd hrec (chunkGo_ne_nil size ov rest _ _)
      · rw [hrec, List.dropLast_cons₂] at hc
        rcases List.mem_cons.mp hc with rfl | hc'
        · exact hinv
        · rw [← hrec] at hc'
          refine ih (overlapOf ov cur ++ [s]) _ (by simp) ?_ ?_ c hc'
          · rw [wordSum_append, wordSum_singleton]
          · right
            have := overlapOf_length_le ov cur
            simp only [List.length_append, List.length_cons, List.length_nil]
            omega
    · rw [chunkGo_add_step size ov cur curLen s rest hcond] at hc
      have hle : curLen + wordCount s ≤ size := by
        rcases not_and_or.mp hcond with h | h
        · omega
        · exact absurd hne (by simpa using h)
      refine ih (cur ++ [s]) _ (by simp) ?_ ?_ c hc
      · rw [wordSum_append, wordSum_singleton, hlen]
      · left
        rw [wordSum_append, wordSum_singleton, ← hlen]
        exact hle

/-- Claim C4 (amended): every chunk except the final one has word count at
most `chunk_size`, except chunks made of at most `overlap + 1` sentences —
the overlap seed inherited from the previous chunk plus one newly added
sentence (for the first chunk: a lone sentence, in particular a single
sentence longer than `chunk_size` kept whole); such chunks may exceed the
nominal size. -/
theorem chunk_wordcount_invariant (text : String) (size ov : Nat) :
    ∀ c ∈ (chunkSentences size ov (pySentSplit text)).dropLast,
      wordCount (joinSp c) ≤ size ∨ c.length ≤ ov + 1 := by
  intro c hc
  rw [wordCount_joinSp]
  cases h : pySentSplit text with
  | nil => rw [h] at hc; simp [chunkSentences] at hc
  | cons s rest =>
    rw [h] at hc
    exact chunkGo_bound size ov rest [s] (wordCount s) (by simp)
      (by rw [wordSum_singleton]) (by right; simp) c hc

/-- Witness for C4 (amended) on the first (non-final) chunk of a concrete
document. -/
theorem chunk_wordcount_invariant_witness :
    wordCount (joinSp ["a b c d.", "e f g h."]) ≤ 10 ∨
      (["a b c d.", "e f g h."] : List String).length ≤ 2 + 1 :=
  chunk_wordcount_invariant "a b c d. e f g h. i j k l. m n o p." 10 2
    ["a b c d.", "e f g h."] (by decide)

/-- Claim C4 counterexample: with `chunk_size = 10` the middle (non-final)
chunk of this document joins three 4-word sentences — 12 words, more than
`chunk_size` — so it is not a single over-long sentence kept whole, refuting
the claimed "sole exception". -/
theorem chunk_wordcount_cex :
    ¬ ∀ c ∈ (chunkSentences 10 2
        (pySentSplit "a b c d. e f g h. i j k l. m n o p.")).dropLast,
      wordCount (joinSp c) ≤ 10 ∨ (c.length = 1 ∧ 10 < wordCount (joinSp c)) := by
  decide

/-! ### Whitespace-only input -/

theorem isPySpace_not_terminal {c : Char} (h : isPySpace c = true) :
    isTerminal c = false := by
  simp only [isPySpace, Bool.or_eq_true, beq_iff_eq] at h
  rcases h with ((((h | h) | h) | h) | h) | h <;> subst h <;> rfl

theorem sentSplitGo_all_space :
    ∀ (l cur : List Char), (∀ c ∈ l, isPySpace c = true) →
      (∀ c ∈ cur, isTerminal c = false) →
      sentSplitGo l cur false = [cur.reverse ++ l] := by
  intro l
  induction l with
  | nil => intro cur _ _; simp [sentSplitGo]
  | cons c rest ih =>
    intro cur hl hcur
    have hterm : headIsTerminal cur = false := by
      cases cur with
      | nil => rfl
      | cons p _ => simpa [headIsTerminal] using hcur p (by simp)
    have hcond : (isPySpace c && headIsTerminal cur) = false := by
      rw [hterm, Bool.and_false]
    rw [sentSplitGo, if_neg (by simp [hcond])]
    rw [ih (c :: cur) (fun d hd => hl d (List.mem_cons_of_mem c hd)) ?_]
    · simp
    · intro d hd
      rcases List.mem_cons.mp hd with rfl | hd'
      · exact isPySpace_not_terminal (hl d (by simp))
      · exact hcur d hd'

theorem pySentSplit_all_space (s : String) (h : ∀ c ∈ s.data, isPySpace c = true) :
    pySentSplit s = [s] := by
  unfold pySentSplit
  rw [sentSplitGo_all_space s.data [] h (by simp)]
  rfl

/-- Claim C5 (amended): on an empty or whitespace-only input `chunk_document`
returns the one-element list `[text]`, not the empty list: `re.split` on such
input yields the single "sentence" `text` (with word count 0), which the loop
accumulates and the trailing flush emits as one chunk. -/
theorem chunk_document_whitespace (s : String) (size ov : Nat)
    (h : ∀ c ∈ s.data, isPySpace c = true) :
    chunk_document s size ov = [s] := by
  unfold chunk_document
  rw [pySentSplit_all_space s h]
  rfl

/-- Witness for C5 (amended) on a whitespace-only string. -/
theorem chunk_document_whitespace_witness :
    (∀ c ∈ (" " : String).data, isPySpace c = true) ∧
    chunk_document " " 200 2 = [" "] :=
  ⟨by decide, chunk_document_whitespace " " 200 2 (by decide)⟩

/-- Claim C5 counterexample: on the empty string `chunk_document` returns
`[""]` — one empty chunk — not the empty sequence the claim requires. -/
theorem chunk_document_empty_cex :
    chunk_document "" 200 2 = [""] ∧ chunk_document "" 200 2 ≠ [] :=
  ⟨by decide, by decide⟩
